import Mathlib

/-!
Verification of the edge-device monitoring agent (`server.js`).

This file gives a shallow embedding of the core orchestration engine:
camera discovery, frame capture with its timeout, prediction dispatch,
the bounded prediction/error histories, and the model-rotation cursor of
the polling loop.  External effects (spawned processes, HTTP calls,
timers) are modelled by explicit environment values describing what the
outside world did; each definition mirrors the corresponding handler in
the source.
-/

/-! ## Constants from the source -/

/-- Cap on the prediction history (`predictions.slice(0, 100)`). -/
def PREDICTION_CAP : Nat := 100

/-- Cap on the error history (`systemErrors.slice(0, 50)`). -/
def ERROR_CAP : Nat := 50

/-- The fixed capture deadline, in milliseconds (`setTimeout(..., 10000)`). -/
def CAPTURE_TIMEOUT_MS : Nat := 10000

/-- Base port for camera streams (`streamPort: 20000 + i`). -/
def BASE_STREAM_PORT : Nat := 20000

/-- Initial value of the `currentModels` global variable. -/
def initialCurrentModels : List String :=
  ["lettuce-diseases", "malabar-spinach-training"]

/-! ## Small string helpers mirroring JavaScript primitives

Text is processed as character lists so that every operation is a
structurally recursive, kernel-computable function. -/

/-- Whether `p` is a prefix of `s`. -/
def startsWithCh : List Char → List Char → Bool
  | [], _ => true
  | _ :: _, [] => false
  | p :: ps, c :: cs => p = c && startsWithCh ps cs

/-- Whether `p` is a suffix of `s`. -/
def endsWithCh (p s : List Char) : Bool :=
  startsWithCh p.reverse s.reverse

/-- JavaScript `s.includes(pat)`: substring occurrence. -/
def containsCh (pat : List Char) : List Char → Bool
  | [] => startsWithCh pat []
  | c :: cs => startsWithCh pat (c :: cs) || containsCh pat cs

/-- The whitespace characters stripped by JavaScript `trim`. -/
def isSpaceCh (c : Char) : Bool :=
  c = ' ' || c = '\t' || c = '\n' || c = '\r'

/-- Strip leading whitespace. -/
def trimLeftCh : List Char → List Char
  | [] => []
  | c :: cs => if isSpaceCh c then trimLeftCh cs else c :: cs

/-- JavaScript `s.trim()`: strip whitespace from both ends. -/
def trimCh (s : List Char) : List Char :=
  ((trimLeftCh ((trimLeftCh s).reverse)).reverse)

/-- JavaScript `s.replace(':', '')`: remove the first colon only. -/
def removeFirstColonCh : List Char → List Char
  | [] => []
  | c :: cs => if c = ':' then cs else c :: removeFirstColonCh cs

/-- JavaScript `s.split(sep)` for a single-character separator. -/
def splitOnChar (sep : Char) : List Char → List (List Char)
  | [] => [[]]
  | c :: cs =>
    if c = sep then [] :: splitOnChar sep cs
    else
      match splitOnChar sep cs with
      | [] => [[c]]
      | x :: xs => (c :: x) :: xs

/-- JavaScript `s.split(sep)` for a multi-character separator, with an
explicit fuel argument to keep the recursion structural. -/
def splitOnChFuel (sep : List Char) : Nat → List Char → List Char → List (List Char)
  | 0, s, acc => [acc.reverse ++ s]
  | fuel + 1, s, acc =>
    match s with
    | [] => [acc.reverse]
    | c :: cs =>
      if startsWithCh sep (c :: cs) then
        acc.reverse :: splitOnChFuel sep fuel (List.drop sep.length (c :: cs)) []
      else
        splitOnChFuel sep fuel cs (c :: acc)

/-- JavaScript `s.split(sep)` for a non-empty separator. -/
def splitOnCh (sep s : List Char) : List (List Char) :=
  splitOnChFuel sep s.length s []

/-! ## Data model -/

/-- An entry of the `systemErrors` history (`addSystemError`). -/
structure ErrorRecord where
  cameraId : Nat
  error : String
  timestamp : Nat
deriving DecidableEq, Repr

/-- The inference service's parsed JSON response: a top-level `error`
field signals failure; `detections` is optional structured output. -/
structure InferenceResponse where
  errorField : Option String
  detections : Option (List String)
deriving DecidableEq, Repr

/-- An entry of the `predictions` history (built in `sendPrediction`). -/
structure PredictionRecord where
  cameraId : Nat
  model : String
  timestamp : Nat
  result : InferenceResponse
  image : String
deriving DecidableEq, Repr

/-- A camera descriptor as produced by `detectCameras`.  The Windows
branch creates descriptors without a `name` field. -/
structure Camera where
  id : Nat
  name : Option String
  device : String
  streamPort : Nat
  streamUrl : String
deriving DecidableEq, Repr

/-- The server's global mutable state: `cameras`, `currentModels`,
`currentModelIndex`, `predictions`, `systemErrors`, `imageBase`. -/
structure ServerState where
  cameras : List Camera
  currentModels : List String
  currentModelIndex : Nat
  predictions : List PredictionRecord
  systemErrors : List ErrorRecord
  imageBase : String
deriving DecidableEq, Repr

/-! ## History store -/

/-- `addSystemError`: unshift the new entry, then truncate to 50 when the
length exceeds the cap. -/
def addSystemError (errs : List ErrorRecord) (e : ErrorRecord) : List ErrorRecord :=
  let errs' := e :: errs
  if errs'.length > ERROR_CAP then errs'.take ERROR_CAP else errs'

/-- The commit step of `predictionLoop`: `predictions.unshift(...batch)`
followed by truncation to 100 when the length exceeds the cap. -/
def commitPredictions (preds : List PredictionRecord) (batch : List PredictionRecord) :
    List PredictionRecord :=
  let preds' := batch ++ preds
  if preds'.length > PREDICTION_CAP then preds'.take PREDICTION_CAP else preds'

/-- The operations that mutate the two history buffers. -/
inductive HistoryOp
  | recordError (e : ErrorRecord)
  | commit (batch : List PredictionRecord)
deriving DecidableEq, Repr

/-- Apply one history operation to the pair (predictions, errors). -/
def applyOp (st : List PredictionRecord × List ErrorRecord) (op : HistoryOp) :
    List PredictionRecord × List ErrorRecord :=
  match op with
  | .recordError e => (st.1, addSystemError st.2 e)
  | .commit batch => (commitPredictions st.1 batch, st.2)

/-- All prediction records pushed by a sequence of operations, newest
first (records of later operations precede those of earlier ones). -/
def pushedPredictions : List HistoryOp → List PredictionRecord
  | [] => []
  | .commit batch :: rest => pushedPredictions rest ++ batch
  | .recordError _ :: rest => pushedPredictions rest

/-- All error records pushed by a sequence of operations, newest first. -/
def pushedErrors : List HistoryOp → List ErrorRecord
  | [] => []
  | .commit _ :: rest => pushedErrors rest
  | .recordError e :: rest => pushedErrors rest ++ [e]

/-! ## Camera discovery (`detectCameras`) -/

/-- The fixed local-loopback stream URL template. -/
def streamUrlFor (port : Nat) : String :=
  "http://localhost:" ++ toString port ++ "/stream"

/-- One named device group of `v4l2-ctl --list-devices` output. -/
structure LinuxGroup where
  name : String
  devices : List String
deriving DecidableEq, Repr

/-- One step of the Linux output parse: skip internal Pi devices, open a
group on a `name (...):` line, and on the first `/dev/video` line of an
open group record that single device and close the group. -/
def linuxParseStep (st : List LinuxGroup × Option LinuxGroup) (line : List Char) :
    List LinuxGroup × Option LinuxGroup :=
  let acc := st.1
  let cur := st.2
  let t := trimCh line
  if containsCh "pispbe".data t || containsCh "rpivid".data t ||
      containsCh "/dev/media".data t then
    (acc, cur)
  else if 0 < t.length && !startsWithCh "/dev/".data t && endsWithCh "):".data t then
    (acc, some { name := ⟨trimCh (removeFirstColonCh t)⟩, devices := [] })
  else
    match cur with
    | some c =>
      if startsWithCh "/dev/video".data t then
        (if c.devices.length = 0 then acc ++ [{ c with devices := c.devices ++ [(⟨t⟩ : String)] }]
         else acc,
         none)
      else (acc, some c)
    | none => (acc, none)

/-- Parse the full `v4l2-ctl --list-devices` output into device groups. -/
def linuxParse (out : String) : List LinuxGroup :=
  ((splitOnChar '\n' out.data).foldl linuxParseStep ([], none)).1

/-- The Linux branch of `detectCameras`: enumerate the parsed groups,
assigning sequential identifiers, `20000 + i` stream ports, and the
loopback stream URL. -/
def detectLinuxFromOutput (out : String) : List Camera :=
  (linuxParse out).enum.map fun p =>
    { id := p.1
      name := some p.2.name
      device := p.2.devices.headD ""
      streamPort := BASE_STREAM_PORT + p.1
      streamUrl := streamUrlFor (BASE_STREAM_PORT + p.1) }

/-- Extraction of a dshow video-device name from the text following an
occurrence of the marker: the characters up to the next quote, provided
that quote is followed by the literal marker of a video device. -/
def dshowNameAfter (after : List Char) : Option String :=
  match splitOnChar '\x22' after with
  | name :: tail :: _ =>
    if 0 < name.length && startsWithCh " (video)".data tail then some ⟨name⟩ else none
  | _ => none

/-- The per-line device match of the Windows branch (the source matches
each line against a video-device pattern and takes the quoted name). -/
def windowsLineDevice (line : List Char) : Option String :=
  match splitOnCh "] \x22".data line with
  | [] => none
  | _ :: afters => afters.findSome? dshowNameAfter

/-- The Windows branch of `detectCameras`: every matching line pushes a
descriptor with the running `cameraIndex` as identifier. -/
def detectWindowsFromOutput (out : String) : List Camera :=
  ((splitOnChar '\n' out.data).filterMap windowsLineDevice).enum.map fun p =>
    { id := p.1
      name := none
      device := p.2
      streamPort := BASE_STREAM_PORT + p.1
      streamUrl := streamUrlFor (BASE_STREAM_PORT + p.1) }

/-- The platform the process is running on (`os.platform()`). -/
inductive Platform
  | linux
  | windows
  | other
deriving DecidableEq, Repr

/-- What the spawned probe utility did: either the spawn failed (the
utility is missing or crashed before producing a process) or the process
ran and its accumulated output text was `s`. -/
inductive ProbeResult
  | spawnError
  | output (s : String)
deriving DecidableEq, Repr

/-- `detectCameras`, as a function of the platform and the probe's
behaviour.  `some cams` means the returned promise resolves with `cams`.
On Linux the `error` handler resolves with the empty list; the Windows
branch installs no `error` handler, so a failed spawn raises an
unhandled error event and the promise never resolves (`none`).  On other
platforms no probe runs and the empty list is returned. -/
def detectCameras (plat : Platform) (probe : ProbeResult) : Option (List Camera) :=
  match plat with
  | .linux =>
    match probe with
    | .spawnError => some []
    | .output s => some (detectLinuxFromOutput s)
  | .windows =>
    match probe with
    | .spawnError => none
    | .output s => some (detectWindowsFromOutput s)
  | .other => some []

/-! ## Model catalog (`getModelList`) -/

/-- Outcome of the catalog request: `failure` covers any thrown error
(network failure, non-2xx status raised by axios); `success d` is a
completed request whose `response.data` was `d` (`none` models a falsy
data field). -/
inductive CatalogResponse
  | failure
  | success (data : Option (List String))
deriving DecidableEq, Repr

/-- `getModelList`: return `response.data || []` on success and the
built-in fallback list on any error. -/
def getModelList : CatalogResponse → List String
  | .failure => ["bacterial-disease", "early-blight"]
  | .success d => d.getD []

/-- The model list the running system actually uses.  `currentModels` is
initialised to the hard-coded literal and never reassigned anywhere in
the source; in particular `initialize` never calls `getModelList`, so
the catalog outcome does not influence the list. -/
def systemModelList (_catalog : CatalogResponse) : List String :=
  initialCurrentModels

/-! ## Frame capture (`captureFrame`) -/

/-- The error message built by the `close` handler on a failed capture. -/
def captureFailMsg (cameraId : Nat) (code : Int) : String :=
  "Failed to capture frame from MJPEG stream for camera " ++ toString cameraId ++
    ". Exit code: " ++ toString code

/-- The error message built by the capture timeout handler. -/
def timeoutMsg (cameraId : Nat) : String :=
  "Timeout capturing frame from camera " ++ toString cameraId

/-- The `close` handler of `captureFrame` (with `STORE_IMAGES_TO_TMP`
false, as configured): resolve with the accumulated buffer when the exit
code is 0, some data event fired and the buffer is non-empty; otherwise
append an ErrorRecord for the camera and reject with the same message.
The returned pair is (settlement of the promise, error history after the
handler ran); the `addSystemError` call happens before the rejection. -/
def captureOnClose (camera : Camera) (code : Int) (imageBuffer : List Nat)
    (hasData : Bool) (errs : List ErrorRecord) (now : Nat) :
    Except String (List Nat) × List ErrorRecord :=
  if code = 0 ∧ hasData = true ∧ imageBuffer.length > 0 then
    (Except.ok imageBuffer, errs)
  else
    let msg := captureFailMsg camera.id code
    (Except.error msg,
     addSystemError errs { cameraId := camera.id, error := msg, timestamp := now })

/-- Behaviour of the spawned ffmpeg process: stdout data events (time in
milliseconds since spawn, chunk bytes) and, when the process terminates
on its own, the time and exit code of its `close` event. -/
structure ProcEnv where
  dataEvents : List (Nat × List Nat)
  closeEvent : Option (Nat × Int)
deriving DecidableEq, Repr

/-- The chunks delivered no later than time `t`. -/
def chunksBy (env : ProcEnv) (t : Nat) : List (List Nat) :=
  (env.dataEvents.filter fun e => e.1 ≤ t).map Prod.snd

/-- Whether any stdout data event fired strictly before time `t`
(the `hasData` flag as seen by a handler running at `t`). -/
def hasDataBefore (env : ProcEnv) (t : Nat) : Bool :=
  env.dataEvents.any fun e => e.1 < t

/-- How the capture promise settled. -/
inductive CaptureOutcome
  | resolved (bytes : List Nat)
  | captureFailed (msg : String)
  | captureTimeout (msg : String)
deriving DecidableEq, Repr

/-- A settlement of the capture promise: the time it happened, the
outcome, and whether the handler killed the ffmpeg process first. -/
structure SettleInfo where
  time : Nat
  outcome : CaptureOutcome
  killed : Bool
deriving DecidableEq, Repr

/-- Settlement by the `close` handler at time `tc` with exit code
`code`, seeing exactly the data delivered by then. -/
def closeSettle (camera : Camera) (env : ProcEnv) (tc : Nat) (code : Int) : SettleInfo :=
  let chunks := chunksBy env tc
  let buffer := chunks.flatten
  if code = 0 ∧ (!chunks.isEmpty) = true ∧ buffer.length > 0 then
    { time := tc, outcome := .resolved buffer, killed := false }
  else
    { time := tc, outcome := .captureFailed (captureFailMsg camera.id code), killed := false }

/-- The settlement of the capture promise for a given process
behaviour.  The timer scheduled by `setTimeout` fires at its 10000 ms
deadline, never earlier; its callback rejects (after killing the
process) only when no data event has fired yet.  A `close` event
occurring before the deadline settles the promise first; a process
that neither closes before the deadline nor is rejected by the timer
settles by its own later `close` event, and a process that never closes
and is not timed out leaves the promise pending (`none`). -/
def captureSettle (camera : Camera) (env : ProcEnv) : Option SettleInfo :=
  match env.closeEvent with
  | some (tc, code) =>
    if tc < CAPTURE_TIMEOUT_MS then some (closeSettle camera env tc code)
    else if hasDataBefore env CAPTURE_TIMEOUT_MS then some (closeSettle camera env tc code)
    else some { time := CAPTURE_TIMEOUT_MS
                outcome := .captureTimeout (timeoutMsg camera.id)
                killed := true }
  | none =>
    if hasDataBefore env CAPTURE_TIMEOUT_MS then none
    else some { time := CAPTURE_TIMEOUT_MS
                outcome := .captureTimeout (timeoutMsg camera.id)
                killed := true }

/-! ## Prediction dispatch (`sendPrediction`) -/

/-- The outcome of the `fetch` to the inference service:
a transport-level failure (the fetch promise rejected), or a response
with its `ok` flag, status code, and parsed JSON body (`none` when the
body failed to parse as JSON). -/
inductive HttpOutcome
  | transportError
  | response (ok : Bool) (status : Nat) (body : Option InferenceResponse)
deriving DecidableEq, Repr

/-- The base-64 alphabet used by `Buffer.toString('base64')`. -/
def base64Alphabet : List Char :=
  "ABCDEFGHIJKLMNOPQRSTUVWXYZabcdefghijklmnopqrstuvwxyz0123456789+/".toList

/-- Character of the base-64 alphabet at index `n`. -/
def b64c (n : Nat) : Char := base64Alphabet.getD n 'A'

/-- Base-64 encoding of a byte list, with padding. -/
def base64Encode : List Nat → String
  | [] => ""
  | [a] =>
    let a := a % 256
    String.mk [b64c (a / 4), b64c (a % 4 * 16), '=', '=']
  | [a, b] =>
    let a := a % 256
    let b := b % 256
    String.mk [b64c (a / 4), b64c (a % 4 * 16 + b / 16), b64c (b % 16 * 4), '=']
  | a :: b :: c :: rest =>
    let a := a % 256
    let b := b % 256
    let c := c % 256
    String.mk [b64c (a / 4), b64c (a % 4 * 16 + b / 16), b64c (b % 16 * 4 + c / 64),
      b64c (c % 64)] ++ base64Encode rest

/-- The data-URL representation attached to a prediction record. -/
def imageDataUrl (imageBuffer : List Nat) : String :=
  "data:image/jpeg;base64," ++ base64Encode imageBuffer

/-- `sendPrediction`: post the frame and model to the inference service.
A non-`ok` status, a JSON parse failure, or an `error` field in the
parsed body throws inside the `try`; the `catch` logs and returns null,
leaving the state untouched.  On success the global `imageBase` is
updated and a PredictionRecord is returned (history insertion is the
caller's job; the commented-out unshift in the source does not run). -/
def sendPrediction (camera : Camera) (imageBuffer : List Nat) (model : String)
    (env : HttpOutcome) (now : Nat) (st : ServerState) :
    Option PredictionRecord × ServerState :=
  match env with
  | .transportError => (none, st)
  | .response ok _status body =>
    if !ok then (none, st)
    else
      match body with
      | none => (none, st)
      | some result =>
        match result.errorField with
        | some _ => (none, st)
        | none =>
          let imageBase64 := imageDataUrl imageBuffer
          let prediction : PredictionRecord :=
            { cameraId := camera.id
              model := model
              timestamp := now
              result := result
              image := imageBase64 }
          (some prediction, { st with imageBase := imageBase64 })

/-- Whether the dispatch environment is one of the failure shapes:
transport failure, non-success HTTP status, unparsable body, or an
explicit error field in the parsed response. -/
def isDispatchFailure : HttpOutcome → Bool
  | .transportError => true
  | .response ok _ body =>
    !ok ||
      match body with
      | none => true
      | some r => r.errorField.isSome

/-! ## The polling loop (`predictionLoop`) -/

/-- The message built by the per-camera `catch` of `predictionLoop`. -/
def loopCatchMsg (cameraId : Nat) (msg : String) : String :=
  "Camera " ++ toString cameraId ++ " capture failed: " ++ msg

/-- One camera's task inside `predictionLoop`, for a capture that ends
with a `close` event carrying exit code `code` after stdout delivered
`chunks`: run the `close` handler; on success dispatch the frame, on
failure the task's `catch` appends a second ErrorRecord and yields
null. -/
def cameraTask (camera : Camera) (model : String) (code : Int)
    (chunks : List (List Nat)) (env : HttpOutcome) (now : Nat) (st : ServerState) :
    Option PredictionRecord × ServerState :=
  let buffer := chunks.flatten
  match captureOnClose camera code buffer (!chunks.isEmpty) st.systemErrors now with
  | (Except.ok buf, errs1) =>
    sendPrediction camera buf model env now { st with systemErrors := errs1 }
  | (Except.error msg, errs1) =>
    let e : ErrorRecord :=
      { cameraId := camera.id, error := loopCatchMsg camera.id msg, timestamp := now }
    (none, { st with systemErrors := addSystemError errs1 e })

/-- One `predictionLoop` tick, with the per-camera task outcomes
abstracted as `outcomes` (one optional record per camera, in camera
order).  With no cameras or no models the tick returns at once;
otherwise the rotation cursor advances by one modulo the model count —
this happens before any task outcome is known — and once all tasks
resolve the non-null records are unshifted into the prediction history
and it is truncated to its cap. -/
def predictionLoopTick (st : ServerState) (outcomes : List (Option PredictionRecord)) :
    ServerState :=
  if st.cameras.length = 0 ∨ st.currentModels.length = 0 then st
  else
    let st1 := { st with
      currentModelIndex := (st.currentModelIndex + 1) % st.currentModels.length }
    { st1 with predictions := commitPredictions st1.predictions (outcomes.filterMap id) }

/-- The model index read at the start of each tick of a run (the index
`currentModels[currentModelIndex]` is read at before the advance). -/
def selectedModelIndices (st : ServerState) :
    List (List (Option PredictionRecord)) → List Nat
  | [] => []
  | o :: rest => st.currentModelIndex :: selectedModelIndices (predictionLoopTick st o) rest

/-! ## Latest prediction per camera (`/api/predictions/latest`) -/

/-- One step of the `/api/predictions/latest` loop: the record `p`
replaces the stored entry for its camera when no entry exists yet or
when `p`'s timestamp is strictly greater. -/
def latestUpdate (acc : Nat → Option PredictionRecord) (p : PredictionRecord) :
    Nat → Option PredictionRecord := fun c =>
  if c = p.cameraId then
    match acc p.cameraId with
    | none => some p
    | some q => if q.timestamp < p.timestamp then some p else some q
  else acc c

/-- The `latestByCamera` mapping built by the route handler: fold over
the prediction history in order. -/
def latestByCamera (preds : List PredictionRecord) : Nat → Option PredictionRecord :=
  preds.foldl latestUpdate fun _ => none

/-- Specification of a latest-per-camera entry: `none` iff the camera
does not appear, otherwise a record of that camera from the list whose
timestamp is maximal among the camera's records. -/
def IsLatestFor (l : List PredictionRecord) (cam : Nat) :
    Option PredictionRecord → Prop
  | none => ∀ p ∈ l, p.cameraId ≠ cam
  | some q => q ∈ l ∧ q.cameraId = cam ∧
      ∀ p ∈ l, p.cameraId = cam → p.timestamp ≤ q.timestamp

/-! ## Concrete fixtures used by the witnesses -/

/-- A sample camera descriptor. -/
def testCamera : Camera :=
  { id := 3
    name := some "USB Camera"
    device := "/dev/video0"
    streamPort := 20003
    streamUrl := streamUrlFor 20003 }

/-- A sample server state with one camera and the two initial models. -/
def testState : ServerState :=
  { cameras := [testCamera]
    currentModels := initialCurrentModels
    currentModelIndex := 0
    predictions := []
    systemErrors := []
    imageBase := "" }

/-- A process that never produces output and never exits on its own. -/
def hangingProc : ProcEnv := { dataEvents := [], closeEvent := none }

/-- A sample prediction record for camera `cam` at time `t`. -/
def sampleRecord (cam t : Nat) : PredictionRecord :=
  { cameraId := cam
    model := "m"
    timestamp := t
    result := { errorField := none, detections := none }
    image := "" }

/-- The example history from the specification:
`{cam:0,t:10}`, `{cam:0,t:20}`, `{cam:1,t:5}`. -/
def examplePredictions : List PredictionRecord :=
  [sampleRecord 0 10, sampleRecord 0 20, sampleRecord 1 5]

/-- A sample `v4l2-ctl --list-devices` output with two cameras, each
exposing a main video node and a metadata node. -/
def sampleV4l2Output : String :=
  "USB Camera (usb-0000:01:00.0-1.2):\n\t/dev/video0\n\t/dev/video1\n\n" ++
    "HD Webcam (usb-0000:01:00.0-1.3):\n\t/dev/video2\n\t/dev/video3\n"

/-! # Shared lemmas -/

theorem take_append_take {α : Type} (n : Nat) (xs ys : List α) :
    (xs ++ ys.take n).take n = (xs ++ ys).take n := by
  rw [List.take_append_eq_append_take, List.take_append_eq_append_take, List.take_take,
    Nat.min_eq_left (Nat.sub_le n xs.length)]

theorem addSystemError_eq_take (errs : List ErrorRecord) (e : ErrorRecord) :
    addSystemError errs e = (e :: errs).take ERROR_CAP := by
  unfold addSystemError
  dsimp only
  split
  · rfl
  · exact (List.take_of_length_le (Nat.le_of_not_lt (by assumption))).symm

theorem commitPredictions_eq_take (preds batch : List PredictionRecord) :
    commitPredictions preds batch = (batch ++ preds).take PREDICTION_CAP := by
  unfold commitPredictions
  dsimp only
  split
  · rfl
  · exact (List.take_of_length_le (Nat.le_of_not_lt (by assumption))).symm

theorem applyOps_normal (ops : List HistoryOp) :
    ∀ (ps : List PredictionRecord) (es : List ErrorRecord),
      ps.length ≤ PREDICTION_CAP → es.length ≤ ERROR_CAP →
      ops.foldl applyOp (ps, es)
        = ((pushedPredictions ops ++ ps).take PREDICTION_CAP,
           (pushedErrors ops ++ es).take ERROR_CAP) := by
  induction ops with
  | nil =>
    intro ps es hp he
    simp [pushedPredictions, pushedErrors, List.take_of_length_le hp,
      List.take_of_length_le he]
  | cons op rest ih =>
    intro ps es hp he
    cases op with
    | recordError e =>
      rw [List.foldl_cons,
        show applyOp (ps, es) (.recordError e) = (ps, (e :: es).take ERROR_CAP) by
          simp [applyOp, addSystemError_eq_take],
        ih ps _ hp (by rw [List.length_take]; exact Nat.min_le_left _ _),
        take_append_take]
      simp [pushedPredictions, pushedErrors, List.append_assoc]
    | commit batch =>
      rw [List.foldl_cons,
        show applyOp (ps, es) (.commit batch)
            = ((batch ++ ps).take PREDICTION_CAP, es) by
          simp [applyOp, commitPredictions_eq_take],
        ih _ es (by rw [List.length_take]; exact Nat.min_le_left _ _) he,
        take_append_take]
      simp [pushedPredictions, pushedErrors, List.append_assoc]

/-! # Claims -/

/-- C2: After any sequence of insertions starting from the empty
histories, the prediction history holds at most 100 records and the
error history at most 50, each ordered newest-first; each history equals
exactly the newest cap-many of everything ever inserted into it, so the
only records ever removed are the oldest ones evicted beyond the cap. -/
theorem history_caps_and_eviction (ops : List HistoryOp) :
    (ops.foldl applyOp ([], [])).1.length ≤ PREDICTION_CAP ∧
    (ops.foldl applyOp ([], [])).2.length ≤ ERROR_CAP ∧
    (ops.foldl applyOp ([], [])).1 = (pushedPredictions ops).take PREDICTION_CAP ∧
    (ops.foldl applyOp ([], [])).2 = (pushedErrors ops).take ERROR_CAP := by
  have h := applyOps_normal ops [] [] (by simp) (by simp)
  rw [List.append_nil, List.append_nil] at h
  refine ⟨?_, ?_, ?_, ?_⟩
  · rw [h, List.length_take]; exact Nat.min_le_left _ _
  · rw [h, List.length_take]; exact Nat.min_le_left _ _
  · rw [h]
  · rw [h]

set_option maxRecDepth 4000 in
/-- Witness for C2: sixty error insertions leave exactly the newest 50. -/
theorem history_caps_and_eviction_witness :
    (((List.range 60).map fun k =>
        HistoryOp.recordError { cameraId := 0, error := "e", timestamp := k }).foldl
      applyOp ([], [])).2.length ≤ ERROR_CAP ∧
    (((List.range 60).map fun k =>
        HistoryOp.recordError { cameraId := 0, error := "e", timestamp := k }).foldl
      applyOp ([], [])).2.length = 50 :=
  ⟨(history_caps_and_eviction ((List.range 60).map fun k =>
      HistoryOp.recordError { cameraId := 0, error := "e", timestamp := k })).2.1,
   by decide⟩

/-- C3: the `close` handler of `captureFrame` resolves with the
accumulated bytes iff the process exited with status 0 and at least one
output byte was accumulated; otherwise it rejects, and the ErrorRecord
for the camera is appended (by the `addSystemError` call preceding the
rejection) before the failure propagates.  The hypothesis records the
data flow of the handler: the buffer only grows when a data event has
set `hasData`. -/
theorem capture_close_resolves_iff (camera : Camera) (code : Int)
    (buffer : List Nat) (hasData : Bool) (errs : List ErrorRecord) (now : Nat)
    (himp : 0 < buffer.length → hasData = true) :
    ((captureOnClose camera code buffer hasData errs now).1 = Except.ok buffer
      ↔ code = 0 ∧ 0 < buffer.length) ∧
    ((code = 0 ∧ 0 < buffer.length) →
      (captureOnClose camera code buffer hasData errs now).2 = errs) ∧
    (¬(code = 0 ∧ 0 < buffer.length) →
      ∃ e : ErrorRecord,
        (captureOnClose camera code buffer hasData errs now).1 = Except.error e.error
        ∧ e.cameraId = camera.id
        ∧ (captureOnClose camera code buffer hasData errs now).2
          = addSystemError errs e) := by
  by_cases hc : code = 0 ∧ 0 < buffer.length
  · obtain ⟨h1, h3⟩ := hc
    have hd := himp h3
    rw [captureOnClose, if_pos ⟨h1, hd, h3⟩]
    refine ⟨by simp [h1, h3], fun _ => rfl, fun hn => absurd ⟨h1, h3⟩ hn⟩
  · have hcond : ¬(code = 0 ∧ hasData = true ∧ buffer.length > 0) := by
      rintro ⟨h1, _, h3⟩
      exact hc ⟨h1, h3⟩
    rw [captureOnClose, if_neg hcond]
    exact ⟨⟨fun h => Except.noConfusion h, fun h => absurd h hc⟩,
      fun h => absurd h hc,
      fun _ => ⟨⟨camera.id, captureFailMsg camera.id code, now⟩, rfl, rfl, rfl⟩⟩

/-- Witness for C3: a clean exit with one byte resolves; a non-zero exit
rejects after appending an error record. -/
theorem capture_close_resolves_iff_witness :
    ((captureOnClose testCamera 0 [7] true [] 5).1 = Except.ok [7]
      ↔ (0 : Int) = 0 ∧ 0 < [7].length) ∧
    ((captureOnClose testCamera 1 [] false [] 5).1 = Except.ok []
      ↔ (1 : Int) = 0 ∧ 0 < ([] : List Nat).length) :=
  ⟨(capture_close_resolves_iff testCamera 0 [7] true [] 5 (fun _ => rfl)).1,
   (capture_close_resolves_iff testCamera 1 [] false [] 5 (by intro h; cases h)).1⟩

theorem closeSettle_not_timeout (camera : Camera) (env : ProcEnv) (tc : Nat)
    (code : Int) (m : String) :
    (closeSettle camera env tc code).outcome ≠ .captureTimeout m := by
  unfold closeSettle
  dsimp only
  split <;> simp

/-- C4: if no output byte arrives from the process within the fixed
10-second deadline (and the process is still running then), the timer
fires at the deadline, kills the process (`killed = true`, the
`ffmpeg.kill` preceding the rejection) and the capture fails with the
timeout error; moreover every timeout settlement, over any process
behaviour, happens no earlier than the deadline. -/
theorem capture_timeout_spec (camera : Camera) (env : ProcEnv)
    (hdata : hasDataBefore env CAPTURE_TIMEOUT_MS = false)
    (hclose : ∀ tc code, env.closeEvent = some (tc, code) → CAPTURE_TIMEOUT_MS ≤ tc) :
    captureSettle camera env
      = some { time := CAPTURE_TIMEOUT_MS
               outcome := .captureTimeout (timeoutMsg camera.id)
               killed := true } ∧
    (∀ env2 : ProcEnv, ∀ s : SettleInfo, captureSettle camera env2 = some s →
      (∃ m, s.outcome = .captureTimeout m) → CAPTURE_TIMEOUT_MS ≤ s.time) := by
  constructor
  · unfold captureSettle
    cases henv : env.closeEvent with
    | none => simp [hdata]
    | some p =>
      obtain ⟨tc, code⟩ := p
      have htc := hclose tc code henv
      simp [hdata, Nat.not_lt.mpr htc]
  · rintro env2 s hs ⟨m, hm⟩
    unfold captureSettle at hs
    rcases henv : env2.closeEvent with _ | ⟨tc, code⟩ <;> simp only [henv] at hs
    · by_cases hd : hasDataBefore env2 CAPTURE_TIMEOUT_MS = true
      · rw [if_pos hd] at hs
        exact Option.noConfusion hs
      · rw [if_neg hd] at hs
        injection hs with hs
        rw [← hs]
    · by_cases h1 : tc < CAPTURE_TIMEOUT_MS
      · rw [if_pos h1] at hs
        injection hs with hs
        rw [← hs] at hm
        exact absurd hm (closeSettle_not_timeout _ _ _ _ m)
      · rw [if_neg h1] at hs
        by_cases hd : hasDataBefore env2 CAPTURE_TIMEOUT_MS = true
        · rw [if_pos hd] at hs
          injection hs with hs
          rw [← hs] at hm
          exact absurd hm (closeSettle_not_timeout _ _ _ _ m)
        · rw [if_neg hd] at hs
          injection hs with hs
          rw [← hs]

/-- Witness for C4: a camera whose stream never produces output times
out at exactly the 10-second deadline with the process killed. -/
theorem capture_timeout_spec_witness :
    captureSettle testCamera hangingProc
      = some { time := CAPTURE_TIMEOUT_MS
               outcome := .captureTimeout (timeoutMsg testCamera.id)
               killed := true } :=
  (capture_timeout_spec testCamera hangingProc rfl
    (fun _ _ h => Option.noConfusion h)).1

/-- C5: for every camera, frame and model, a transport-level failure, a
non-success HTTP status, an unparsable body, or an explicit error field
in the parsed response makes `sendPrediction` yield nothing and leave
the whole server state — in particular the error history — untouched.
The function is total, so no exception reaches the caller. -/
theorem dispatch_failure_yields_nothing (camera : Camera) (imageBuffer : List Nat)
    (model : String) (env : HttpOutcome) (now : Nat) (st : ServerState)
    (h : isDispatchFailure env = true) :
    sendPrediction camera imageBuffer model env now st = (none, st) := by
  cases env with
  | transportError => rfl
  | response ok status body =>
    cases ok with
    | false => rfl
    | true =>
      cases body with
      | none => rfl
      | some r =>
        simp only [isDispatchFailure, Bool.not_true, Bool.false_or] at h
        cases herr : r.errorField with
        | none => rw [herr] at h; simp at h
        | some e => simp [sendPrediction, herr]

/-- Witness for C5: a response with an explicit error field yields
nothing and appends no error record. -/
theorem dispatch_failure_yields_nothing_witness :
    sendPrediction testCamera [1] "m"
        (HttpOutcome.response true 200 (some { errorField := some "bad", detections := none }))
        0 testState
      = (none, testState) :=
  dispatch_failure_yields_nothing testCamera [1] "m"
    (HttpOutcome.response true 200 (some { errorField := some "bad", detections := none }))
    0 testState rfl

theorem tick_fields (st : ServerState) (o : List (Option PredictionRecord))
    (hc : st.cameras ≠ []) (hm : st.currentModels ≠ []) :
    (predictionLoopTick st o).cameras = st.cameras ∧
    (predictionLoopTick st o).currentModels = st.currentModels ∧
    (predictionLoopTick st o).currentModelIndex
      = (st.currentModelIndex + 1) % st.currentModels.length := by
  have hcond : ¬(st.cameras.length = 0 ∨ st.currentModels.length = 0) := by
    rintro (h | h)
    · exact hc (List.length_eq_zero.mp h)
    · exact hm (List.length_eq_zero.mp h)
  rw [predictionLoopTick, if_neg hcond]
  exact ⟨rfl, rfl, rfl⟩

theorem rotation_indices_perm (N i : Nat) (hi : i < N) :
    ((List.range N).map fun k => (i + k) % N).Perm (List.range N) := by
  have hN : 0 < N := Nat.lt_of_le_of_lt (Nat.zero_le i) hi
  have hnd : ((List.range N).map fun k => (i + k) % N).Nodup := by
    refine List.Nodup.map_on ?_ (List.nodup_range N)
    intro x hx y hy hxy
    rw [List.mem_range] at hx hy
    have hmod : Nat.ModEq N x y := Nat.ModEq.add_left_cancel' i hxy
    rwa [Nat.ModEq, Nat.mod_eq_of_lt hx, Nat.mod_eq_of_lt hy] at hmod
  have hsub : ((List.range N).map fun k => (i + k) % N) ⊆ List.range N := by
    intro x hx
    rw [List.mem_map] at hx
    obtain ⟨k, _, rfl⟩ := hx
    rw [List.mem_range]
    exact Nat.mod_lt _ hN
  exact (hnd.subperm hsub).perm_of_length_le (by simp)

theorem selectedModelIndices_formula (seq : List (List (Option PredictionRecord))) :
    ∀ st : ServerState, st.cameras ≠ [] → st.currentModels ≠ [] →
      st.currentModelIndex < st.currentModels.length →
      selectedModelIndices st seq
        = (List.range seq.length).map
            fun k => (st.currentModelIndex + k) % st.currentModels.length := by
  induction seq with
  | nil => intro st _ _ _; rfl
  | cons o rest ih =>
    intro st hc hm hi
    have hf := tick_fields st o hc hm
    have hN : 0 < st.currentModels.length := List.length_pos.mpr hm
    have hi' : (predictionLoopTick st o).currentModelIndex
        < (predictionLoopTick st o).currentModels.length := by
      rw [hf.2.1, hf.2.2]
      exact Nat.mod_lt _ hN
    rw [selectedModelIndices, ih (predictionLoopTick st o)
        (by rw [hf.1]; exact hc) (by rw [hf.2.1]; exact hm) hi']
    rw [hf.2.1, hf.2.2]
    rw [List.length_cons, List.range_succ_eq_map, List.map_cons, List.map_map]
    congr 1
    · rw [Nat.add_zero, Nat.mod_eq_of_lt hi]
    · refine List.map_congr_left fun k _ => ?_
      simp only [Function.comp_apply]
      rw [Nat.mod_add_mod]
      congr 1
      omega

/-- C1: on every tick that does any work (at least one camera and a
non-empty model list — the loop is only started with cameras present,
and both lists are fixed thereafter), the rotation cursor advances by
exactly one position modulo the model count, independently of the
per-camera outcomes of the cycle; over `N` consecutive ticks the indices
read are `i, i+1 mod N, …`, a permutation of all `N` positions, so every
model is visited exactly once, in configured order. -/
theorem model_rotation_advances (st : ServerState)
    (outcomes outcomes' : List (Option PredictionRecord))
    (seq : List (List (Option PredictionRecord)))
    (hc : st.cameras ≠ []) (hm : st.currentModels ≠ [])
    (hi : st.currentModelIndex < st.currentModels.length)
    (hseq : seq.length = st.currentModels.length) :
    (predictionLoopTick st outcomes).currentModelIndex
      = (st.currentModelIndex + 1) % st.currentModels.length ∧
    (predictionLoopTick st outcomes).currentModelIndex
      = (predictionLoopTick st outcomes').currentModelIndex ∧
    selectedModelIndices st seq
      = (List.range st.currentModels.length).map
          (fun k => (st.currentModelIndex + k) % st.currentModels.length) ∧
    (selectedModelIndices st seq).Perm (List.range st.currentModels.length) := by
  have h1 := (tick_fields st outcomes hc hm).2.2
  have h2 := (tick_fields st outcomes' hc hm).2.2
  have h3 := selectedModelIndices_formula seq st hc hm hi
  rw [hseq] at h3
  exact ⟨h1, by rw [h1, h2], h3,
    by rw [h3]; exact rotation_indices_perm _ _ hi⟩

/-- Witness for C1: with the two initial models, a tick advances the
cursor from 0 to 1 and two consecutive ticks read the indices 0, 1. -/
theorem model_rotation_advances_witness :
    (predictionLoopTick testState []).currentModelIndex
      = (testState.currentModelIndex + 1) % testState.currentModels.length ∧
    selectedModelIndices testState [[], []] = [0, 1] :=
  ⟨(model_rotation_advances testState [] [] [[], []]
      (by decide) (by decide) (by decide) (by decide)).1,
   by decide⟩

/-- C6 counterexample: on Windows with a missing probe utility,
`detectCameras` does not resolve with the empty sequence — the branch
installs no error handler, so the promise never resolves. -/
theorem discovery_windows_spawn_error_counterexample :
    detectCameras Platform.windows ProbeResult.spawnError ≠ some [] ∧
    detectCameras Platform.windows ProbeResult.spawnError = none :=
  ⟨fun h => Option.noConfusion h, rfl⟩

/-- C6 amended: on Linux a missing probe or unusable output resolves
with the empty sequence, as does any output-less run on Windows and any
run on an unsupported platform; only a failed spawn on Windows is left
unhandled. -/
theorem discovery_best_effort_amended :
    detectCameras Platform.linux ProbeResult.spawnError = some [] ∧
    detectCameras Platform.linux (ProbeResult.output "") = some [] ∧
    detectCameras Platform.windows (ProbeResult.output "") = some [] ∧
    (∀ pr, detectCameras Platform.other pr = some []) ∧
    detectCameras Platform.windows ProbeResult.spawnError = none :=
  ⟨rfl, rfl, rfl, fun _ => rfl, rfl⟩

/-- C8 counterexample: even when the catalog request succeeds with a
list, the system's model list is the hard-coded initial one —
`getModelList` is never invoked, so the system does not obtain its
models from the catalog. -/
theorem model_list_not_from_catalog :
    getModelList (CatalogResponse.success (some ["m1"])) = ["m1"] ∧
    systemModelList (CatalogResponse.success (some ["m1"])) = initialCurrentModels ∧
    systemModelList (CatalogResponse.success (some ["m1"]))
      ≠ getModelList (CatalogResponse.success (some ["m1"])) :=
  ⟨rfl, rfl, by decide⟩

/-- C8 amended: the helper `getModelList` does perform the catalog GET
and falls back to the built-in default list on failure, but the running
system never calls it: its model list is always the hard-coded initial
list, whatever the catalog does. -/
theorem model_list_amended :
    (∀ d, getModelList (CatalogResponse.success (some d)) = d) ∧
    getModelList (CatalogResponse.success none) = [] ∧
    getModelList CatalogResponse.failure = ["bacterial-disease", "early-blight"] ∧
    (∀ env, systemModelList env = initialCurrentModels) :=
  ⟨fun _ => rfl, rfl, rfl, fun _ => rfl⟩

theorem camsFromEnum_spec {α : Type} (l : List α) (g : Nat × α → Camera)
    (hid : ∀ p, (g p).id = p.1)
    (hport : ∀ p, (g p).streamPort = BASE_STREAM_PORT + p.1)
    (hurl : ∀ p, (g p).streamUrl = streamUrlFor (BASE_STREAM_PORT + p.1)) :
    (l.enum.map g).map Camera.id = List.range (l.enum.map g).length ∧
    ∀ c ∈ l.enum.map g, c.streamPort = BASE_STREAM_PORT + c.id ∧
      c.streamUrl = streamUrlFor (BASE_STREAM_PORT + c.id) := by
  constructor
  · rw [List.map_map, List.length_map, List.enum_length]
    have hfg : (Camera.id ∘ g) = Prod.fst := funext hid
    rw [hfg, List.enum_map_fst]
  · intro c hcmem
    rw [List.mem_map] at hcmem
    obtain ⟨p, _, rfl⟩ := hcmem
    rw [hid, hport, hurl]
    exact ⟨rfl, rfl⟩

/-- C7: whenever discovery resolves, the returned descriptors carry the
identifiers `0, 1, …` in enumeration order with no gaps, each stream
port is `20000 + id`, and each stream URL is the loopback template over
that port. -/
theorem discovery_ids_ports_urls (plat : Platform) (probe : ProbeResult)
    (cams : List Camera) (h : detectCameras plat probe = some cams) :
    cams.map Camera.id = List.range cams.length ∧
    ∀ c ∈ cams, c.streamPort = BASE_STREAM_PORT + c.id ∧
      c.streamUrl = streamUrlFor (BASE_STREAM_PORT + c.id) := by
  cases plat with
  | linux =>
    cases probe with
    | spawnError =>
      injection h with h
      subst h
      exact ⟨rfl, fun c hc => absurd hc (List.not_mem_nil c)⟩
    | output s =>
      injection h with h
      subst h
      exact camsFromEnum_spec (linuxParse s) _
        (fun _ => rfl) (fun _ => rfl) (fun _ => rfl)
  | windows =>
    cases probe with
    | spawnError => exact Option.noConfusion h
    | output s =>
      injection h with h
      subst h
      exact camsFromEnum_spec ((splitOnChar '\n' s.data).filterMap windowsLineDevice) _
        (fun _ => rfl) (fun _ => rfl) (fun _ => rfl)
  | other =>
    injection h with h
    subst h
    exact ⟨rfl, fun c hc => absurd hc (List.not_mem_nil c)⟩

/-- Witness for C7: the sample two-camera probe output yields
identifiers `[0, 1]`, and indeed two cameras. -/
theorem discovery_ids_ports_urls_witness :
    (detectLinuxFromOutput sampleV4l2Output).map Camera.id
      = List.range (detectLinuxFromOutput sampleV4l2Output).length ∧
    (detectLinuxFromOutput sampleV4l2Output).length = 2 :=
  ⟨(discovery_ids_ports_urls Platform.linux (ProbeResult.output sampleV4l2Output)
      (detectLinuxFromOutput sampleV4l2Output) rfl).1,
   by decide⟩

theorem latestUpdate_step (l0 : List PredictionRecord) (p : PredictionRecord)
    (acc : Nat → Option PredictionRecord) (cam : Nat)
    (hacc : IsLatestFor l0 cam (acc cam)) :
    IsLatestFor (l0 ++ [p]) cam (latestUpdate acc p cam) := by
  unfold latestUpdate
  by_cases hcam : cam = p.cameraId
  · rw [if_pos hcam]
    subst hcam
    cases hq : acc p.cameraId with
    | none =>
      rw [hq] at hacc
      simp only [IsLatestFor] at hacc ⊢
      refine ⟨List.mem_append_right _ (List.mem_singleton_self p), trivial, ?_⟩
      intro r hrmem hrcam
      rcases List.mem_append.mp hrmem with hin | hin
      · exact absurd hrcam (hacc r hin)
      · rw [List.mem_singleton] at hin
        subst hin
        exact Nat.le_refl _
    | some q =>
      rw [hq] at hacc
      simp only [IsLatestFor] at hacc ⊢
      obtain ⟨hqmem, hqcam, hqmax⟩ := hacc
      by_cases ht : q.timestamp < p.timestamp
      · rw [if_pos ht]
        simp only [IsLatestFor]
        refine ⟨List.mem_append_right _ (List.mem_singleton_self p), trivial, ?_⟩
        intro r hrmem hrcam
        rcases List.mem_append.mp hrmem with hin | hin
        · exact Nat.le_trans (hqmax r hin hrcam) (Nat.le_of_lt ht)
        · rw [List.mem_singleton] at hin
          subst hin
          exact Nat.le_refl _
      · rw [if_neg ht]
        simp only [IsLatestFor]
        refine ⟨List.mem_append_left _ hqmem, hqcam, ?_⟩
        intro r hrmem hrcam
        rcases List.mem_append.mp hrmem with hin | hin
        · exact hqmax r hin hrcam
        · rw [List.mem_singleton] at hin
          subst hin
          exact Nat.le_of_not_lt ht
  · rw [if_neg hcam]
    cases hq : acc cam with
    | none =>
      rw [hq] at hacc
      simp only [IsLatestFor] at hacc ⊢
      intro r hrmem
      rcases List.mem_append.mp hrmem with hin | hin
      · exact hacc r hin
      · rw [List.mem_singleton] at hin
        subst hin
        intro hrc
        exact hcam hrc.symm
    | some q =>
      rw [hq] at hacc
      simp only [IsLatestFor] at hacc ⊢
      obtain ⟨hqmem, hqcam, hqmax⟩ := hacc
      refine ⟨List.mem_append_left _ hqmem, hqcam, ?_⟩
      intro r hrmem hrcam
      rcases List.mem_append.mp hrmem with hin | hin
      · exact hqmax r hin hrcam
      · rw [List.mem_singleton] at hin
        subst hin
        exact absurd hrcam.symm hcam

theorem latestByCamera_fold (preds : List PredictionRecord) :
    ∀ (l0 : List PredictionRecord) (acc : Nat → Option PredictionRecord) (cam : Nat),
      IsLatestFor l0 cam (acc cam) →
      IsLatestFor (l0 ++ preds) cam ((preds.foldl latestUpdate acc) cam) := by
  induction preds with
  | nil =>
    intro l0 acc cam h
    simpa using h
  | cons p rest ih =>
    intro l0 acc cam h
    have h2 := ih (l0 ++ [p]) (latestUpdate acc p) cam (latestUpdate_step l0 p acc cam h)
    rw [List.append_assoc] at h2
    simpa using h2

theorem isLatest_latestByCamera (preds : List PredictionRecord) (cam : Nat) :
    IsLatestFor preds cam (latestByCamera preds cam) := by
  have h := latestByCamera_fold preds [] (fun _ => none) cam
    (by simp only [IsLatestFor]; intro r hr; exact absurd hr (List.not_mem_nil r))
  simpa using h

/-- C9: for every camera id appearing in the prediction history,
`latestByCamera` returns a record of that camera from the history whose
timestamp is greatest among the camera's records. -/
theorem latest_per_camera_greatest (preds : List PredictionRecord) (cam : Nat)
    (h : ∃ p ∈ preds, p.cameraId = cam) :
    ∃ q, latestByCamera preds cam = some q ∧ q ∈ preds ∧ q.cameraId = cam ∧
      ∀ p ∈ preds, p.cameraId = cam → p.timestamp ≤ q.timestamp := by
  have H := isLatest_latestByCamera preds cam
  cases hq : latestByCamera preds cam with
  | none =>
    rw [hq] at H
    simp only [IsLatestFor] at H
    obtain ⟨p, hp, hcam⟩ := h
    exact absurd hcam (H p hp)
  | some q =>
    rw [hq] at H
    simp only [IsLatestFor] at H
    exact ⟨q, rfl, H.1, H.2.1, H.2.2⟩

/-- Witness for C9: on the specification's example history the mapping
returns the `t = 20` record for camera 0 and the `t = 5` record for
camera 1. -/
theorem latest_per_camera_greatest_witness :
    (∃ q, latestByCamera examplePredictions 0 = some q ∧ q ∈ examplePredictions ∧
        q.cameraId = 0 ∧
        ∀ p ∈ examplePredictions, p.cameraId = 0 → p.timestamp ≤ q.timestamp) ∧
    latestByCamera examplePredictions 0 = some (sampleRecord 0 20) ∧
    latestByCamera examplePredictions 1 = some (sampleRecord 1 5) :=
  ⟨latest_per_camera_greatest examplePredictions 0
      ⟨sampleRecord 0 10, by decide, rfl⟩,
   by decide, by decide⟩

/-- C10: when the capture for a camera fails in a cycle, the error
history receives two records for that camera, not one: the capture
routine's failure handler appends the first, and the polling loop's
`catch` around the same failure appends the second, so one failed
capture consumes two slots of the 50-entry error cap. -/
theorem capture_failure_two_error_records (camera : Camera) (model : String)
    (code : Int) (chunks : List (List Nat)) (env : HttpOutcome) (now : Nat)
    (st : ServerState) (h : ¬(code = 0 ∧ 0 < chunks.flatten.length)) :
    ∃ e1 e2 : ErrorRecord,
      (cameraTask camera model code chunks env now st).2.systemErrors
        = addSystemError (addSystemError st.systemErrors e1) e2
      ∧ e1.cameraId = camera.id ∧ e2.cameraId = camera.id
      ∧ e1.error = captureFailMsg camera.id code
      ∧ e2.error = loopCatchMsg camera.id (captureFailMsg camera.id code)
      ∧ (cameraTask camera model code chunks env now st).1 = none := by
  have hcond : ¬(code = 0 ∧ (!chunks.isEmpty) = true ∧ chunks.flatten.length > 0) := by
    rintro ⟨h1, _, h3⟩
    exact h ⟨h1, h3⟩
  refine ⟨⟨camera.id, captureFailMsg camera.id code, now⟩,
    ⟨camera.id, loopCatchMsg camera.id (captureFailMsg camera.id code), now⟩,
    ?_, rfl, rfl, rfl, rfl, ?_⟩ <;>
  · simp only [cameraTask, captureOnClose]
    rw [if_neg hcond]

/-- Witness for C10: a capture closing with exit code 1 and no output
puts exactly two fresh records for the camera at the head of the error
history. -/
theorem capture_failure_two_error_records_witness :
    ∃ e1 e2 : ErrorRecord,
      (cameraTask testCamera "m" 1 [] HttpOutcome.transportError 0 testState).2.systemErrors
        = addSystemError (addSystemError testState.systemErrors e1) e2
      ∧ e1.cameraId = testCamera.id ∧ e2.cameraId = testCamera.id
      ∧ e1.error = captureFailMsg testCamera.id 1
      ∧ e2.error = loopCatchMsg testCamera.id (captureFailMsg testCamera.id 1)
      ∧ (cameraTask testCamera "m" 1 [] HttpOutcome.transportError 0 testState).1 = none :=
  capture_failure_two_error_records testCamera "m" 1 [] HttpOutcome.transportError 0
    testState (by decide)
